import Mathlib

/-!
Verification of the `archivertools` package (`src/archivertools/__init__.py`)
against its specification.

The embedding models the Python-3 execution path of the module:

* `sha256hex` — a full implementation of FIPS-180-4 SHA-256 over byte lists,
  producing the lowercase hex digest exactly as `hashlib.sha256(...).hexdigest()`.
* `SHA256Hasher` — the incremental `hashlib.sha256()` object.  It is modelled
  by the byte sequence fed to it so far; `hexdigest` hashes that sequence
  (the documented hashlib guarantee: interleaving `update` calls is equivalent
  to hashing the concatenation of all data fed).
* `PyFile` — a binary file opened with `open(filename, 'rb')`: immutable
  contents plus a read position, with `read(n)`, `read()` and `seek(0)`.
* `DB`, `sessionAdd*` — the three sqlite tables (`runs_metadata`, `files`,
  `child_urls`) created by the sqlalchemy models, with the single `UNIQUE`
  constraint on `child_urls.url`.  Store-level failures other than that
  constraint (I/O errors, injected faults) enter through an explicit
  `Option DBError` fault parameter on each insert.
* `archiverInit`, `addURL`, `addFile`, `commit` — the four operations of the
  `Archiver` class, translated statement by statement.
-/

namespace ArchiverTools

/-! ## SHA-256 (FIPS 180-4), over `List Nat` bytes -/

/-- Truncate to a 32-bit word. -/
def w32 (x : Nat) : Nat := x % 4294967296

/-- Right rotation of a 32-bit word by `n`. -/
def rotr32 (n x : Nat) : Nat := w32 ((x >>> n) ||| (x <<< (32 - n)))

/-- Bitwise complement of a 32-bit word. -/
def not32 (x : Nat) : Nat := x ^^^ 4294967295

def ch32 (x y z : Nat) : Nat := (x &&& y) ^^^ (not32 x &&& z)

def maj32 (x y z : Nat) : Nat := (x &&& y) ^^^ (x &&& z) ^^^ (y &&& z)

def bigSigma0 (x : Nat) : Nat := rotr32 2 x ^^^ rotr32 13 x ^^^ rotr32 22 x

def bigSigma1 (x : Nat) : Nat := rotr32 6 x ^^^ rotr32 11 x ^^^ rotr32 25 x

def smallSigma0 (x : Nat) : Nat := rotr32 7 x ^^^ rotr32 18 x ^^^ (x >>> 3)

def smallSigma1 (x : Nat) : Nat := rotr32 17 x ^^^ rotr32 19 x ^^^ (x >>> 10)

/-- The 64 SHA-256 round constants of FIPS 180-4 §4.2.2, in decimal. -/
def shaK : List Nat :=
  [1116352408, 1899447441, 3049323471, 3921009573, 961987163,
   1508970993, 2453635748, 2870763221, 3624381080, 310598401,
   607225278, 1426881987, 1925078388, 2162078206, 2614888103,
   3248222580, 3835390401, 4022224774, 264347078, 604807628,
   770255983, 1249150122, 1555081692, 1996064986, 2554220882,
   2821834349, 2952996808, 3210313671, 3336571891, 3584528711,
   113926993, 338241895, 666307205, 773529912, 1294757372,
   1396182291, 1695183700, 1986661051, 2177026350, 2456956037,
   2730485921, 2820302411, 3259730800, 3345764771, 3516065817,
   3600352804, 4094571909, 275423344, 430227734, 506948616,
   659060556, 883997877, 958139571, 1322822218, 1537002063,
   1747873779, 1955562222, 2024104815, 2227730452, 2361852424,
   2428436474, 2756734187, 3204031479, 3329325298]

/-- The initial SHA-256 hash state of FIPS 180-4 §5.3.3, in decimal. -/
def shaH0 : List Nat :=
  [1779033703, 3144134277, 1013904242, 2773480762,
   1359893119, 2600822924, 528734635, 1541459225]

/-- The `k` bytes of `x`, most significant first. -/
def toBytesBE : Nat → Nat → List Nat
  | 0, _ => []
  | k + 1, x => toBytesBE k (x / 256) ++ [x % 256]

/-- Group bytes four at a time into big-endian 32-bit words. -/
def bytesToWordsBE : List Nat → List Nat
  | a :: b :: c :: d :: rest => (((a * 256 + b) * 256 + c) * 256 + d) :: bytesToWordsBE rest
  | _ => []

/-- SHA-256 padding: append the byte 128, zero bytes up to 56 mod 64, then
the 64-bit big-endian bit length. -/
def padMessage (msg : List Nat) : List Nat :=
  msg ++ [128] ++ List.replicate ((119 - msg.length % 64) % 64) 0
      ++ toBytesBE 8 (8 * msg.length)

/-- Split a byte stream into 64-byte blocks; `fuel` bounds the recursion and
is always instantiated with the stream length, which suffices because each
step drops 64 bytes of a non-empty stream. -/
def toBlocksAux : Nat → List Nat → List (List Nat)
  | _, [] => []
  | 0, _ :: _ => []
  | fuel + 1, b :: l => (b :: l).take 64 :: toBlocksAux fuel ((b :: l).drop 64)

/-- Split the padded byte stream into 64-byte blocks. -/
def toBlocks (l : List Nat) : List (List Nat) := toBlocksAux l.length l

/-- Append the next word of the message schedule. -/
def scheduleStep (w : List Nat) : List Nat :=
  let t := w.length
  w ++ [w32 (smallSigma1 (w.getD (t - 2) 0) + w.getD (t - 7) 0
      + smallSigma0 (w.getD (t - 15) 0) + w.getD (t - 16) 0)]

/-- Iterate `scheduleStep` `n` times. -/
def extendW : Nat → List Nat → List Nat
  | 0, w => w
  | n + 1, w => extendW n (scheduleStep w)

/-- One round of the SHA-256 compression function on the 8-word state. -/
def compressStep (k w : Nat) : List Nat → List Nat
  | [a, b, c, d, e, f, g, h] =>
    let t1 := w32 (h + bigSigma1 e + ch32 e f g + k + w)
    let t2 := w32 (bigSigma0 a + maj32 a b c)
    [w32 (t1 + t2), a, b, c, w32 (d + t1), e, f, g]
  | s => s

/-- Process one 64-byte block. -/
def compressBlock (H : List Nat) (block : List Nat) : List Nat :=
  let W := extendW 48 (bytesToWordsBE block)
  let s := (shaK.zip W).foldl (fun s kw => compressStep kw.1 kw.2 s) H
  (H.zip s).map fun p => w32 (p.1 + p.2)

/-- The raw 32-byte SHA-256 digest of a byte sequence. -/
def sha256bytes (msg : List Nat) : List Nat :=
  ((toBlocks (padMessage msg)).foldl compressBlock shaH0).foldr
    (fun wd acc => toBytesBE 4 wd ++ acc) []

/-- A lowercase hexadecimal digit. -/
def hexChar (n : Nat) : Char :=
  if n < 10 then Char.ofNat (48 + n) else Char.ofNat (87 + n)

/-- Two lowercase hex digits of a byte. -/
def byteToHex (b : Nat) : List Char := [hexChar (b / 16), hexChar (b % 16)]

/-- Model of `hashlib.sha256(msg).hexdigest()`: the lowercase hex SHA-256 digest. -/
def sha256hex (msg : List Nat) : String :=
  String.mk ((sha256bytes msg).foldr (fun b acc => byteToHex b ++ acc) [])

/-! ## The incremental hasher object (`hashlib.sha256()`) -/

/-- An in-progress `hashlib.sha256()` object, modelled by the byte sequence fed
to it so far.  hashlib guarantees that `update` calls concatenate: the digest
after `update(a); update(b)` equals the digest of `a ++ b`. -/
structure SHA256Hasher where
  fed : List Nat
deriving DecidableEq, Repr

/-- A fresh `hashlib.sha256()` object. -/
def SHA256Hasher.new : SHA256Hasher := ⟨[]⟩

/-- Model of `hasher.update(data)`. -/
def SHA256Hasher.update (h : SHA256Hasher) (data : List Nat) : SHA256Hasher :=
  ⟨h.fed ++ data⟩

/-- Model of `hasher.hexdigest()`. -/
def SHA256Hasher.hexdigest (h : SHA256Hasher) : String := sha256hex h.fed

/-! ## Binary files (`open(filename, 'rb')`) -/

/-- A file opened in binary-read mode: fixed byte contents plus the current
read position. -/
structure PyFile where
  contents : List Nat
  pos : Nat
deriving DecidableEq, Repr

/-- Model of `f.read(n)` for `n ≥ 0`: up to `n` bytes from the current position, which
advances by the number of bytes actually returned. -/
def PyFile.readN (f : PyFile) (n : Nat) : List Nat × PyFile :=
  ((f.contents.drop f.pos).take n,
   ⟨f.contents, f.pos + ((f.contents.drop f.pos).take n).length⟩)

/-- Model of `f.read()`: everything from the current position to end of file. -/
def PyFile.readAll (f : PyFile) : List Nat × PyFile :=
  (f.contents.drop f.pos, ⟨f.contents, f.contents.length⟩)

/-- Model of `f.seek(0)`. -/
def PyFile.seekStart (f : PyFile) : PyFile := ⟨f.contents, 0⟩

/-! ## The chunked hashing loop of `addFile` -/

/-- The `addFile` read-hash loop for `buffer_size > 0`:
`data = f.read(buffer_size)` followed by
`while data: sha256_hasher.update(data); data = f.read(buffer_size)`. -/
def hashWhileLoop (h : SHA256Hasher) (f : PyFile) (bufferSize : Nat) :
    SHA256Hasher × PyFile :=
  if hd : (f.readN bufferSize).1 = [] then (h, (f.readN bufferSize).2)
  else hashWhileLoop (h.update (f.readN bufferSize).1) (f.readN bufferSize).2 bufferSize
termination_by f.contents.length - f.pos
decreasing_by
  simp only [PyFile.readN] at hd ⊢
  have h1 : 0 < ((f.contents.drop f.pos).take bufferSize).length :=
    List.length_pos.mpr hd
  have h2 : (f.contents.drop f.pos).length = f.contents.length - f.pos :=
    List.length_drop f.pos f.contents
  have h3 : ((f.contents.drop f.pos).take bufferSize).length =
      min bufferSize (f.contents.drop f.pos).length :=
    List.length_take bufferSize (f.contents.drop f.pos)
  omega

/-- The hashing pass of `addFile`: open the file, then either run the chunked
loop (`buffer_size > 0`) or a single whole-file `read` and `update`.  Returns
the hasher and the file object as left by the pass. -/
def hashingPass (file : List Nat) (bufferSize : Int) : SHA256Hasher × PyFile :=
  if 0 < bufferSize then
    hashWhileLoop SHA256Hasher.new ⟨file, 0⟩ bufferSize.toNat
  else
    (SHA256Hasher.new.update (PyFile.mk file 0).readAll.1,
     (PyFile.mk file 0).readAll.2)

/-! ## The sqlite store (`runs_metadata`, `files`, `child_urls`) -/

/-- A row of `runs_metadata` (`_RunMetadata`); `run_id` is the store-assigned
integer primary key.  Timestamps are abstract `Nat` instants. -/
structure RunRow where
  run_id : Nat
  url : String
  UUID : String
  timestamp : Nat
  body_content : List Nat
  body_SHA256 : String
  headers : String
deriving DecidableEq, Repr

/-- A row of `files` (`_File`). -/
structure FileRow where
  run_id : Nat
  file_contents : List Nat
  filename : String
  file_SHA256 : String
  comments : Option String
  timestamp : Nat
deriving DecidableEq, Repr

/-- A row of `child_urls` (`_ChildURL`); the `url` column carries a `UNIQUE`
constraint. -/
structure ChildRow where
  run_id : Nat
  url : String
  timestamp : Nat
deriving DecidableEq, Repr

/-- The three tables of `data.sqlite`. -/
structure DB where
  runs_metadata : List RunRow
  files : List FileRow
  child_urls : List ChildRow
deriving DecidableEq, Repr

/-- An error raised by a `session.add(...); session.commit()` round trip:
either a `sqlalchemy.exc.IntegrityError` carrying its message text, or any
other store failure (operational/IO errors) carrying its message text. -/
inductive DBError where
  | integrityError (msg : String)
  | operationalError (msg : String)
deriving DecidableEq, Repr

/-- Naive list-of-characters prefix test. -/
def charsPrefixOf : List Char → List Char → Bool
  | [], _ => true
  | _ :: _, [] => false
  | a :: as, b :: bs => a = b && charsPrefixOf as bs

/-- Python's `pat in s` substring test. -/
def strContains (s pat : String) : Bool :=
  (List.range (s.toList.length + 1)).any fun i =>
    charsPrefixOf pat.toList (s.toList.drop i)

/-- The message text sqlite produces when the `UNIQUE` constraint on
`child_urls.url` rejects an insert. -/
def uniqueFailedMsg : String := "UNIQUE constraint failed: child_urls.url"

/-- Insert into `runs_metadata` (`self.__add(self.run_metadata)`): the store
assigns the next primary key.  `fault` injects a store-level failure (I/O
error etc.); the table itself has no constraint an insert can violate. -/
def sessionAddRun (db : DB) (mkRow : Nat → RunRow) (fault : Option DBError) :
    Except DBError (DB × RunRow) :=
  match fault with
  | some e => .error e
  | none =>
    let row := mkRow (db.runs_metadata.length + 1)
    .ok ({ db with runs_metadata := db.runs_metadata ++ [row] }, row)

/-- Insert into `child_urls` (`self.__add(child_url)`): a row whose `url` is
already present anywhere in the table violates the `UNIQUE` constraint and
raises `IntegrityError`; `fault` injects any other store-level failure. -/
def sessionAddChild (db : DB) (row : ChildRow) (fault : Option DBError) :
    Except DBError DB :=
  match fault with
  | some e => .error e
  | none =>
    if db.child_urls.any (fun r => r.url == row.url) then
      .error (.integrityError uniqueFailedMsg)
    else
      .ok { db with child_urls := db.child_urls ++ [row] }

/-- Insert into `files` (`self.__add(file_object)`); no table constraint,
`fault` injects store-level failures. -/
def sessionAddFile (db : DB) (row : FileRow) (fault : Option DBError) :
    Except DBError DB :=
  match fault with
  | some e => .error e
  | none => .ok { db with files := db.files ++ [row] }

/-! ## The `Archiver` class -/

/-- The result of `requests.get(url)` at construction time: raw body bytes
and the response header mapping. -/
structure FetchResult where
  content : List Nat
  headers : List (String × String)
deriving DecidableEq, Repr

/-- Model of `json.dumps(dict(r.headers))`: the stable textual serialization of the
header mapping. -/
def jsonDumps (pairs : List (String × String)) : String :=
  "\x7b" ++ String.intercalate ", "
    (pairs.map fun p => "\"" ++ p.1 ++ "\": \"" ++ p.2 ++ "\"") ++ "\x7d"

/-- The in-memory `Archiver` object after a successful constructor call. -/
structure Archiver where
  url : String
  headers : String
  content : List Nat
  content_hash : String
  run_metadata : RunRow
deriving DecidableEq, Repr

/-- The `Archiver` object and updated store that `__init__` produces when the
run-row insert succeeds: headers serialized, `content_hash` the SHA-256 hex
digest of the body, and the `_RunMetadata` payload written to the store. -/
def initBuild (db : DB) (url UUID : String) (r : FetchResult) (now : Nat) :
    Archiver × DB :=
  let headers := jsonDumps r.headers
  let content := r.content
  let content_hash := sha256hex content
  let rid := db.runs_metadata.length + 1
  let row : RunRow := ⟨rid, url, UUID, now, content, content_hash, headers⟩
  (⟨url, headers, content, content_hash, row⟩,
   { db with runs_metadata := db.runs_metadata ++ [row] })

/-- Model of `Archiver.__init__(url, UUID)` on the Python-3 path: fetch (the boundary
supplies `r` and the current time `now`), hash the body, build the
`_RunMetadata` payload and insert it once via `__add`; an insert failure
propagates to the caller with nothing retried. -/
def archiverInit (db : DB) (url UUID : String) (r : FetchResult) (now : Nat)
    (fault : Option DBError) : Except DBError (Archiver × DB) :=
  match fault with
  | some e => .error e
  | none => .ok (initBuild db url UUID r now)

/-- Model of `Archiver.addURL(url)`: build the `_ChildURL` payload from this run's id
and insert it; an `IntegrityError` whose message contains
`'UNIQUE constraint failed'` is swallowed (`pass`), every other error is
re-raised. -/
def addURL (db : DB) (a : Archiver) (url : String) (now : Nat)
    (fault : Option DBError) : Except DBError DB :=
  let row : ChildRow := ⟨a.run_metadata.run_id, url, now⟩
  match sessionAddChild db row fault with
  | .ok db' => .ok db'
  | .error (.integrityError msg) =>
    if strContains msg "UNIQUE constraint failed" then .ok db
    else .error (.integrityError msg)
  | .error e => .error e

/-- Model of `Archiver.addFile(filename, comments, buffer_size)`: run the hashing pass
over the opened file, take `hexdigest()`, `seek(0)`, re-read the whole file as
the stored payload, and insert the `_File` row. -/
def addFile (db : DB) (a : Archiver) (file : List Nat) (filename : String)
    (comments : Option String) (bufferSize : Int) (now : Nat)
    (fault : Option DBError) : Except DBError DB :=
  let hp := hashingPass file bufferSize
  let file_contents_hash := hp.1.hexdigest
  let file_contents := (hp.2.seekStart).readAll.1
  let row : FileRow :=
    ⟨a.run_metadata.run_id, file_contents, filename, file_contents_hash,
     comments, now⟩
  sessionAddFile db row fault

/-! ## The completion handshake (`__getJWT` and `commit`) -/

/-- One outbound network call made during the handshake. -/
inductive NetCall where
  | postJWT (accessToken : String)
  | getPublickey
  | getSession (authorization : String)
deriving DecidableEq, Repr

/-- An exception escaping `commit`. -/
inductive CommitError where
  | keyError
  | decodeError
  | httpError (status : Nat)
deriving DecidableEq, Repr

/-- The execution environment of a `commit` call: the optional
`MORPH_DT_API_KEY` variable, the bodies the identity service returns for the
token and public-key requests, whether `jwt.decode(token, pubkey, ['RS256'])`
verifies, and the HTTP status of the session/report response. -/
structure NetEnv where
  apiKey : Option String
  jwtBody : String
  publickeyBody : String
  decodeOK : Bool
  sessionStatus : Nat
deriving DecidableEq, Repr

/-- Model of `Archiver.__getJWT()`: read `MORPH_DT_API_KEY` (absence raises
`KeyError` before any network call), POST for the token, GET the public key,
verify the token signature (`jwt.decode`, re-raising `DecodeError` on
failure), and return the token.  The second component is the trace of
outbound network calls, in order. -/
def getJWT (env : NetEnv) : Except CommitError String × List NetCall :=
  match env.apiKey with
  | none => (.error .keyError, [])
  | some key =>
    let token := env.jwtBody
    let calls := [NetCall.postJWT key, NetCall.getPublickey]
    if env.decodeOK then (.ok token, calls)
    else (.error .decodeError, calls)

/-- Model of `requests.Response.raise_for_status()`: raises `HTTPError` exactly for
client-error (4xx) and server-error (5xx) status codes. -/
def raiseForStatus (status : Nat) : Except CommitError Unit :=
  if 400 ≤ status ∧ status < 600 then .error (.httpError status) else .ok ()

/-- Model of `Archiver.commit()` on the Python-3 path: obtain the verified JWT (any
exception from `__getJWT` propagates), present it as a bearer credential to
the session/report endpoint, and `raise_for_status()` on the response.
Returns the outcome together with the ordered trace of network calls. -/
def commit (env : NetEnv) : Except CommitError Unit × List NetCall :=
  match getJWT env with
  | (.error e, calls) => (.error e, calls)
  | (.ok token, calls) =>
    let calls2 := calls ++ [NetCall.getSession ("Bearer " ++ token)]
    match raiseForStatus env.sessionStatus with
    | .error e => (.error e, calls2)
    | .ok _ => (.ok (), calls2)

/-! ## Lemmas about the hashing pass -/

theorem drop_min_length {α : Type} (l : List α) (n : Nat) :
    l.drop (min n l.length) = l.drop n := by
  rcases Nat.le_total n l.length with h | h
  · rw [Nat.min_eq_left h]
  · rw [Nat.min_eq_right h, List.drop_length, List.drop_eq_nil_of_le h]

/-- After the `while` loop, the hasher has been fed exactly the bytes from the
starting position to end of file, appended to whatever it already held, and
the file's contents are untouched. -/
theorem hashWhileLoop_spec (bs : Nat) (hbs : 1 ≤ bs) :
    ∀ (n : Nat) (h : SHA256Hasher) (f : PyFile), f.contents.length - f.pos ≤ n →
      (hashWhileLoop h f bs).1 = h.update (f.contents.drop f.pos) ∧
      (hashWhileLoop h f bs).2.contents = f.contents := by
  intro n
  induction n with
  | zero =>
    intro h f hn
    have hdrop : f.contents.drop f.pos = [] :=
      List.drop_eq_nil_of_le (by omega)
    rw [hashWhileLoop]
    simp [PyFile.readN, hdrop, SHA256Hasher.update]
  | succ n ih =>
    intro h f hn
    by_cases hemp : (f.contents.drop f.pos).take bs = []
    · have hdrop : f.contents.drop f.pos = [] := by
        rcases List.take_eq_nil_iff.mp hemp with h0 | h0
        · omega
        · exact h0
      rw [hashWhileLoop]
      simp [PyFile.readN, hdrop, SHA256Hasher.update]
    · rw [hashWhileLoop]
      rw [dif_neg (by simpa [PyFile.readN] using hemp)]
      set rest := f.contents.drop f.pos with hrest
      set data := rest.take bs with hdata
      have hm : data.length = min bs rest.length := List.length_take bs rest
      have hpos : f.pos < f.contents.length := by
        by_contra hge
        exact hemp (by
          rw [← hrest] at *
          have : rest = [] := List.drop_eq_nil_of_le (by omega)
          simp [hdata, this])
      have hlen : 1 ≤ data.length := List.length_pos.mpr hemp
      have hrec := ih (h.update data)
        ⟨f.contents, f.pos + data.length⟩
        (by
          simp only [List.length_drop, hrest] at hm
          simp only []
          omega)
      rcases hrec with ⟨h1, h2⟩
      constructor
      · rw [show (f.readN bs).1 = data from rfl,
          show (f.readN bs).2 = ⟨f.contents, f.pos + data.length⟩ from rfl]
        rw [h1]
        simp only [SHA256Hasher.update, SHA256Hasher.mk.injEq, List.append_assoc]
        congr 1
        have hdd : f.contents.drop (f.pos + data.length) = rest.drop data.length := by
          rw [hrest, List.drop_drop, Nat.add_comm]
        rw [hdd, hm, drop_min_length]
        exact List.take_append_drop bs rest
      · rw [show (f.readN bs).1 = data from rfl,
          show (f.readN bs).2 = ⟨f.contents, f.pos + data.length⟩ from rfl]
        exact h2

/-- The hashing pass of `addFile` always feeds the hasher exactly the file's
bytes and leaves the file contents unchanged, for every `buffer_size`. -/
theorem hashingPass_fed (B : List Nat) (c : Int) :
    (hashingPass B c).1.fed = B ∧ (hashingPass B c).2.contents = B := by
  unfold hashingPass
  by_cases hc : 0 < c
  · rw [if_pos hc]
    have hbs : 1 ≤ c.toNat := by omega
    have := hashWhileLoop_spec c.toNat hbs B.length SHA256Hasher.new ⟨B, 0⟩
      (by simp)
    rcases this with ⟨h1, h2⟩
    refine ⟨?_, h2⟩
    rw [h1]
    simp [SHA256Hasher.new, SHA256Hasher.update]
  · rw [if_neg hc]
    simp [SHA256Hasher.new, SHA256Hasher.update, PyFile.readAll]

/-- Does the code's `except` clause classify this error as the swallowed
uniqueness violation (`IntegrityError` with `'UNIQUE constraint failed'` in
its message)?  In this schema `child_urls.url` is the only `UNIQUE` column,
so this is exactly the URL-uniqueness violation. -/
def isUniqueViolation : DBError → Bool
  | .integrityError msg => strContains msg "UNIQUE constraint failed"
  | .operationalError _ => false

/-- Number of `child_urls` rows holding a given URL. -/
def countURL (db : DB) (url : String) : Nat :=
  (db.child_urls.filter fun r => r.url == url).length

/-- Behaviour of `addURL` when the insert raises an `IntegrityError` whose message carries
the `UNIQUE` marker: the exception is swallowed and the store is untouched. -/
theorem addURL_unique_eq (db : DB) (a : Archiver) (url : String) (now : Nat)
    (msg : String) (hm : strContains msg "UNIQUE constraint failed" = true) :
    addURL db a url now (some (.integrityError msg)) = .ok db := by
  show (if strContains msg "UNIQUE constraint failed" = true then Except.ok db
    else Except.error (DBError.integrityError msg)) = Except.ok db
  rw [if_pos hm]

/-- Behaviour of `addURL` when the insert raises an `IntegrityError` without the `UNIQUE`
marker: the exception is re-raised. -/
theorem addURL_integrity_other_eq (db : DB) (a : Archiver) (url : String)
    (now : Nat) (msg : String)
    (hm : strContains msg "UNIQUE constraint failed" = false) :
    addURL db a url now (some (.integrityError msg)) =
      .error (.integrityError msg) := by
  show (if strContains msg "UNIQUE constraint failed" = true then Except.ok db
    else Except.error (DBError.integrityError msg)) =
    Except.error (DBError.integrityError msg)
  rw [if_neg (by rw [hm]; simp)]

/-- Behaviour of `addURL` when the insert fails with a non-`IntegrityError` store error:
the exception propagates uncaught. -/
theorem addURL_operational_eq (db : DB) (a : Archiver) (url : String)
    (now : Nat) (msg : String) :
    addURL db a url now (some (.operationalError msg)) =
      .error (.operationalError msg) := rfl

/-- Behaviour of `addURL` with a fault-free store: a duplicate URL anywhere in
`child_urls` hits the `UNIQUE` constraint, whose error message is caught and
swallowed leaving the store untouched; a fresh URL is appended. -/
theorem addURL_none_eq (db : DB) (a : Archiver) (url : String) (now : Nat) :
    addURL db a url now none =
      if db.child_urls.any (fun r => r.url == url) then .ok db
      else .ok { db with child_urls :=
        db.child_urls ++ [⟨a.run_metadata.run_id, url, now⟩] } := by
  simp only [addURL, sessionAddChild]
  by_cases hex : (db.child_urls.any fun r => r.url == url) = true
  · rw [if_pos hex, if_pos hex]
    show (if strContains uniqueFailedMsg "UNIQUE constraint failed" = true
      then Except.ok db else Except.error (DBError.integrityError uniqueFailedMsg)) =
      Except.ok db
    rw [if_pos (show strContains uniqueFailedMsg "UNIQUE constraint failed" = true
      from rfl)]
  · rw [if_neg hex, if_neg hex]

/-- The operation `addURL` never touches the `runs_metadata` or `files` tables. -/
theorem addURL_frame (db : DB) (a : Archiver) (url : String) (now : Nat)
    (fault : Option DBError) (db' : DB)
    (h : addURL db a url now fault = .ok db') :
    db'.runs_metadata = db.runs_metadata ∧ db'.files = db.files := by
  cases fault with
  | some e =>
    cases e with
    | integrityError msg =>
      by_cases hm : strContains msg "UNIQUE constraint failed"
      · rw [addURL_unique_eq db a url now msg hm] at h
        cases h
        exact ⟨rfl, rfl⟩
      · rw [addURL_integrity_other_eq db a url now msg
          (Bool.not_eq_true _ ▸ eq_false_of_ne_true hm)] at h
        cases h
    | operationalError msg =>
      rw [addURL_operational_eq] at h
      cases h
  | none =>
    rw [addURL_none_eq] at h
    by_cases hex : (db.child_urls.any fun r => r.url == url) = true
    · rw [if_pos hex] at h
      cases h
      exact ⟨rfl, rfl⟩
    · rw [if_neg hex] at h
      cases h
      exact ⟨rfl, rfl⟩

/-- The operation `addFile` never touches the `runs_metadata` or `child_urls` tables. -/
theorem addFile_frame (db : DB) (a : Archiver) (file : List Nat)
    (filename : String) (comments : Option String) (bs : Int) (now : Nat)
    (fault : Option DBError) (db' : DB)
    (h : addFile db a file filename comments bs now fault = .ok db') :
    db'.runs_metadata = db.runs_metadata ∧ db'.child_urls = db.child_urls := by
  cases fault with
  | some e => simp [addFile, sessionAddFile] at h
  | none =>
    simp only [addFile, sessionAddFile] at h
    cases h
    exact ⟨rfl, rfl⟩

/-! ## Concrete fixtures for witnesses -/

/-- A store with the three tables empty. -/
def dbEmpty : DB := ⟨[], [], []⟩

/-- The fetch result of the specification's worked scenario: body `b"hello"`. -/
def rHello : FetchResult :=
  ⟨[104, 101, 108, 108, 111], [("Content-Type", "text/html")]⟩

/-- The archiver built by the constructor on the `b"hello"` fetch. -/
def archHello : Archiver :=
  (initBuild dbEmpty "https://example.org/a" "uuid-1" rHello 0).1

/-- The store after that constructor call. -/
def dbHello : DB :=
  (initBuild dbEmpty "https://example.org/a" "uuid-1" rHello 0).2

/-- A store already holding one child URL. -/
def dbOneChild : DB := ⟨[], [], [⟨1, "https://example.org/b", 0⟩]⟩

/-- The SHA-256 model reproduces the specification's worked digest of
`b"hello"`. -/
theorem sha256hex_hello :
    sha256hex [104, 101, 108, 108, 111] =
      "2cf24dba5fb0a30e26e83b2ac5b9e29e1b161e5c1fa7425e73043362938b9824" := by
  rfl

/-! ## The claims -/

/-- Claim C1: for every byte sequence `B` and every chunk size `c ≥ 1`, as
well as the whole-buffer mode selected by chunk size 0, the hex digest
computed by the chunked hashing loop in `addFile` over `B` equals the SHA-256
digest of `B` computed in a single whole-buffer update, independent of `c`. -/
theorem chunked_digest_independent_of_buffer (B : List Nat) (c : Int)
    (h : 1 ≤ c ∨ c = 0) :
    (hashingPass B c).1.hexdigest = sha256hex B := by
  show sha256hex (hashingPass B c).1.fed = sha256hex B
  rw [(hashingPass_fed B c).1]

theorem chunked_digest_independent_of_buffer_witness :
    (1 ≤ (2 : Int) ∨ (2 : Int) = 0) ∧
    (hashingPass [104, 101, 108, 108, 111] 2).1.hexdigest =
      sha256hex [104, 101, 108, 108, 111] :=
  ⟨Or.inl (by decide),
   chunked_digest_independent_of_buffer [104, 101, 108, 108, 111] 2
     (Or.inl (by decide))⟩

/-- Claim C2: for every `Archiver` whose constructor returns, the stored
`body_SHA256` field equals the hex-encoded SHA-256 digest of the stored
`body_content` bytes, and the run row persisted to `runs_metadata` is exactly
that record. -/
theorem stored_body_hash_matches_body (db : DB) (url UUID : String)
    (r : FetchResult) (now : Nat) (fault : Option DBError) (a : Archiver)
    (db' : DB) (h : archiverInit db url UUID r now fault = .ok (a, db')) :
    db'.runs_metadata = db.runs_metadata ++ [a.run_metadata] ∧
    a.run_metadata.body_SHA256 = sha256hex a.run_metadata.body_content := by
  cases fault with
  | some e => simp [archiverInit] at h
  | none =>
    simp only [archiverInit, Except.ok.injEq] at h
    have ha : a = (initBuild db url UUID r now).1 := by rw [h]
    have hdb : db' = (initBuild db url UUID r now).2 := by rw [h]
    subst ha
    subst hdb
    exact ⟨rfl, rfl⟩

theorem stored_body_hash_matches_body_witness :
    archHello.run_metadata.body_SHA256 =
      sha256hex archHello.run_metadata.body_content :=
  (stored_body_hash_matches_body dbEmpty "https://example.org/a" "uuid-1"
    rHello 0 none archHello dbHello rfl).2

/-- Claim C7: for every successful `addFile` call, the byte sequence consumed
by the hashing pass equals the byte sequence captured by the storage pass
after `seek(0)`, and the inserted `files` row stores the full file bytes with
`file_SHA256` equal to their SHA-256 hex digest. -/
theorem addFile_stored_hash_matches_contents (db : DB) (a : Archiver)
    (file : List Nat) (filename : String) (comments : Option String)
    (bs : Int) (now : Nat) (fault : Option DBError) (db' : DB)
    (h : addFile db a file filename comments bs now fault = .ok db') :
    (hashingPass file bs).1.fed = (hashingPass file bs).2.seekStart.readAll.1 ∧
    db'.files = db.files ++
      [⟨a.run_metadata.run_id, file, filename, sha256hex file, comments, now⟩] := by
  obtain ⟨hfed, hcont⟩ := hashingPass_fed file bs
  have hread : (hashingPass file bs).2.seekStart.readAll.1 = file := by
    simp [PyFile.seekStart, PyFile.readAll, hcont]
  refine ⟨by rw [hfed, hread], ?_⟩
  cases fault with
  | some e => simp [addFile, sessionAddFile] at h
  | none =>
    simp only [addFile, sessionAddFile, Except.ok.injEq] at h
    rw [← h]
    have hdig : (hashingPass file bs).1.hexdigest = sha256hex file := by
      show sha256hex (hashingPass file bs).1.fed = sha256hex file
      rw [hfed]
    rw [hread, hdig]

theorem addFile_stored_hash_matches_contents_witness :
    (hashingPass [100, 97, 116, 97] 2).1.fed =
      (hashingPass [100, 97, 116, 97] 2).2.seekStart.readAll.1 ∧
    (addFile dbHello archHello [100, 97, 116, 97] "f.bin" none 2 7 none).map
        DB.files =
      .ok (dbHello.files ++
        [⟨archHello.run_metadata.run_id, [100, 97, 116, 97], "f.bin",
          sha256hex [100, 97, 116, 97], none, 7⟩]) := by
  obtain ⟨h1, h2⟩ := addFile_stored_hash_matches_contents dbHello archHello
    [100, 97, 116, 97] "f.bin" none 2 7 none _ rfl
  exact ⟨h1, by rw [show (addFile dbHello archHello [100, 97, 116, 97]
    "f.bin" none 2 7 none).map DB.files = .ok _ from rfl, h2]⟩

/-- Claim C9: for every byte sequence `B` and every `buffer_size ≤ 0` (so in
particular every negative value, not only the documented 0), `addFile` takes
the whole-file branch: the hashing pass is literally the `buffer_size = 0`
pass, hence produces the same digest. -/
theorem negative_buffer_whole_file_branch (B : List Nat) (c : Int)
    (h : c ≤ 0) :
    hashingPass B c = hashingPass B 0 ∧
    (hashingPass B c).1.hexdigest = sha256hex B := by
  constructor
  · unfold hashingPass
    rw [if_neg (by omega), if_neg (by omega)]
  · show sha256hex (hashingPass B c).1.fed = sha256hex B
    rw [(hashingPass_fed B c).1]

theorem negative_buffer_whole_file_branch_witness :
    hashingPass [1, 2, 3] (-7) = hashingPass [1, 2, 3] 0 ∧
    (hashingPass [1, 2, 3] (-7)).1.hexdigest = sha256hex [1, 2, 3] :=
  negative_buffer_whole_file_branch [1, 2, 3] (-7) (by decide)

/-- Claim C3: `addURL` raises no error and leaves exactly one row for a URL
already present anywhere in `child_urls` — the uniqueness violation is
swallowed as a successful no-op — while every other store failure during the
insert is surfaced; it raises an error if and only if the insert failed with
an error the `except` clause does not classify as the uniqueness violation. -/
theorem addURL_swallows_only_unique_violation (db : DB) (a : Archiver)
    (url : String) (now : Nat) (fault : Option DBError) :
    (∀ e, addURL db a url now fault = .error e ↔
      (sessionAddChild db ⟨a.run_metadata.run_id, url, now⟩ fault = .error e ∧
       isUniqueViolation e = false)) ∧
    (countURL db url = 1 →
      ∃ db', addURL db a url now none = .ok db' ∧ countURL db' url = 1) := by
  constructor
  · intro e
    cases fault with
    | some f =>
      have hsc : sessionAddChild db ⟨a.run_metadata.run_id, url, now⟩
          (some f) = .error f := rfl
      cases f with
      | integrityError msg =>
        by_cases hm : strContains msg "UNIQUE constraint failed"
        · rw [addURL_unique_eq db a url now msg hm]
          constructor
          · intro h
            cases h
          · rintro ⟨h1, h2⟩
            rw [hsc] at h1
            cases h1
            simp [isUniqueViolation, hm] at h2
        · have hm' : strContains msg "UNIQUE constraint failed" = false :=
            Bool.not_eq_true _ ▸ eq_false_of_ne_true hm
          rw [addURL_integrity_other_eq db a url now msg hm']
          constructor
          · intro h
            cases h
            exact ⟨hsc, by simp [isUniqueViolation, hm']⟩
          · rintro ⟨h1, _⟩
            rw [hsc] at h1
            cases h1
            rfl
      | operationalError msg =>
        rw [addURL_operational_eq]
        constructor
        · intro h
          cases h
          exact ⟨hsc, by simp [isUniqueViolation]⟩
        · rintro ⟨h1, _⟩
          rw [hsc] at h1
          cases h1
          rfl
    | none =>
      rw [addURL_none_eq]
      by_cases hex : (db.child_urls.any fun r => r.url == url) = true
      · rw [if_pos hex]
        have hsc : sessionAddChild db ⟨a.run_metadata.run_id, url, now⟩ none =
            .error (.integrityError uniqueFailedMsg) := by
          simp only [sessionAddChild]
          rw [if_pos hex]
        constructor
        · intro h
          cases h
        · rintro ⟨h1, h2⟩
          rw [hsc] at h1
          cases h1
          simp [isUniqueViolation, uniqueFailedMsg] at h2
          exact absurd (show strContains uniqueFailedMsg
            "UNIQUE constraint failed" = true from rfl)
            (by simpa [uniqueFailedMsg] using h2)
      · rw [if_neg hex]
        have hsc : sessionAddChild db ⟨a.run_metadata.run_id, url, now⟩ none =
            .ok { db with child_urls :=
              db.child_urls ++ [⟨a.run_metadata.run_id, url, now⟩] } := by
          simp only [sessionAddChild]
          rw [if_neg hex]
        constructor
        · intro h
          cases h
        · rintro ⟨h1, _⟩
          rw [hsc] at h1
          cases h1
  · intro hcount
    have hex : (db.child_urls.any fun r => r.url == url) = true := by
      rw [List.any_eq_true]
      have : (db.child_urls.filter fun r => r.url == url).length = 1 := hcount
      rcases hfl : db.child_urls.filter (fun r => r.url == url) with _ | ⟨r, rs⟩
      · rw [hfl] at this
        cases this
      · have hr : r ∈ db.child_urls.filter fun x => x.url == url := by
          rw [hfl]
          exact List.mem_cons_self r rs
        rw [List.mem_filter] at hr
        exact ⟨r, hr.1, hr.2⟩
    refine ⟨db, ?_, hcount⟩
    rw [addURL_none_eq, if_pos hex]

theorem addURL_swallows_only_unique_violation_witness :
    ∃ db', addURL dbOneChild archHello "https://example.org/b" 5 none =
      .ok db' ∧ countURL db' "https://example.org/b" = 1 :=
  (addURL_swallows_only_unique_violation dbOneChild archHello
    "https://example.org/b" 5 none).2 (by decide)

/-- Claim C10: when `addURL` is called with a URL already present in
`child_urls`, the whole store is returned unchanged — the existing row keeps
the `run_id` and `timestamp` of the first insert, and no table is modified. -/
theorem addURL_duplicate_leaves_db_unchanged (db : DB) (a : Archiver)
    (url : String) (now : Nat)
    (h : (db.child_urls.any fun r => r.url == url) = true) :
    addURL db a url now none = .ok db := by
  rw [addURL_none_eq, if_pos h]

theorem addURL_duplicate_leaves_db_unchanged_witness :
    addURL dbOneChild archHello "https://example.org/b" 5 none =
      .ok dbOneChild :=
  addURL_duplicate_leaves_db_unchanged dbOneChild archHello
    "https://example.org/b" 5 (by decide)

/-- Claim C4: whenever the returned token fails signature verification
against the fetched public key, `commit` terminates with the verification
error surfaced to the caller, the network trace is exactly the token request
followed by the public-key fetch, and the report endpoint is never called. -/
theorem commit_unverified_token_never_reported (env : NetEnv) (k : String)
    (hk : env.apiKey = some k) (hv : env.decodeOK = false) :
    (commit env).1 = .error .decodeError ∧
    (commit env).2 = [.postJWT k, .getPublickey] ∧
    ∀ s, NetCall.getSession s ∉ (commit env).2 := by
  have hj : getJWT env = (.error .decodeError, [.postJWT k, .getPublickey]) := by
    simp [getJWT, hk, hv]
  have hc : commit env = (.error .decodeError, [.postJWT k, .getPublickey]) := by
    simp [commit, hj]
  refine ⟨by rw [hc], by rw [hc], ?_⟩
  intro s hs
  rw [hc] at hs
  simp at hs

theorem commit_unverified_token_never_reported_witness :
    (commit ⟨some "key", "tok", "pub", false, 200⟩).1 =
      .error .decodeError ∧
    (commit ⟨some "key", "tok", "pub", false, 200⟩).2 =
      [.postJWT "key", .getPublickey] ∧
    ∀ s, NetCall.getSession s ∉ (commit ⟨some "key", "tok", "pub", false, 200⟩).2 :=
  commit_unverified_token_never_reported ⟨some "key", "tok", "pub", false, 200⟩
    "key" rfl rfl

/-- Claim C5: whenever `MORPH_DT_API_KEY` is absent from the environment,
`commit` fails immediately with the configuration `KeyError` and the network
trace is empty — no token request, public-key fetch or report call is made. -/
theorem commit_missing_key_no_network (env : NetEnv)
    (h : env.apiKey = none) :
    (commit env).1 = .error .keyError ∧ (commit env).2 = [] := by
  have hj : getJWT env = (.error .keyError, []) := by
    simp [getJWT, h]
  have hc : commit env = (.error .keyError, []) := by
    simp [commit, hj]
  exact ⟨by rw [hc], by rw [hc]⟩

theorem commit_missing_key_no_network_witness :
    (commit ⟨none, "tok", "pub", true, 200⟩).1 = .error .keyError ∧
    (commit ⟨none, "tok", "pub", true, 200⟩).2 = [] :=
  commit_missing_key_no_network ⟨none, "tok", "pub", true, 200⟩ rfl

/-- Claim C6: when the token verifies, the report endpoint is called with the
bearer token, and over the valid HTTP status range `commit` surfaces the
`HTTPError` if and only if the response status is non-success in the sense of
`raise_for_status` (a 4xx client error or 5xx server error); on any status
below 400 — in particular every 2xx success — `commit` returns normally. -/
theorem commit_report_status_errors (env : NetEnv) (k : String)
    (hk : env.apiKey = some k) (hv : env.decodeOK = true)
    (hs : env.sessionStatus < 600) :
    (commit env).2 =
      [.postJWT k, .getPublickey, .getSession ("Bearer " ++ env.jwtBody)] ∧
    ((commit env).1 = .error (.httpError env.sessionStatus) ↔
      400 ≤ env.sessionStatus) ∧
    (env.sessionStatus < 400 → (commit env).1 = .ok ()) := by
  have hj : getJWT env = (.ok env.jwtBody, [.postJWT k, .getPublickey]) := by
    simp [getJWT, hk, hv]
  by_cases h4 : 400 ≤ env.sessionStatus
  · have hr : raiseForStatus env.sessionStatus =
        .error (.httpError env.sessionStatus) := by
      simp only [raiseForStatus]
      rw [if_pos ⟨h4, hs⟩]
    have hc : commit env = (.error (.httpError env.sessionStatus),
        [.postJWT k, .getPublickey, .getSession ("Bearer " ++ env.jwtBody)]) := by
      simp [commit, hj, hr]
    refine ⟨by rw [hc], ?_, ?_⟩
    · rw [hc]
      exact ⟨fun _ => h4, fun _ => rfl⟩
    · intro hlt
      omega
  · have hr : raiseForStatus env.sessionStatus = .ok () := by
      simp only [raiseForStatus]
      rw [if_neg (by omega)]
    have hc : commit env = (.ok (),
        [.postJWT k, .getPublickey, .getSession ("Bearer " ++ env.jwtBody)]) := by
      simp [commit, hj, hr]
    refine ⟨by rw [hc], ?_, fun _ => by rw [hc]⟩
    rw [hc]
    constructor
    · intro h
      cases h
    · intro h
      exact absurd h h4

theorem commit_report_status_errors_witness :
    ((commit ⟨some "key", "tok", "pub", true, 500⟩).1 =
        .error (.httpError 500) ↔ 400 ≤ 500) ∧
    (commit ⟨some "key", "tok", "pub", true, 204⟩).1 = .ok () :=
  ⟨(commit_report_status_errors ⟨some "key", "tok", "pub", true, 500⟩ "key"
      rfl rfl (by decide)).2.1,
   (commit_report_status_errors ⟨some "key", "tok", "pub", true, 204⟩ "key"
      rfl rfl (by decide)).2.2 (by decide)⟩

/-- Claim C8: a successful constructor call performs exactly one insert of a
new run row (appended to `runs_metadata` with the store-assigned next id); an
insert failure is surfaced unchanged to the caller with no retry and no
`Archiver` produced; and after success `run_id`, the content digest and the
serialized headers are set from the fetch and remain untouched by `addURL`
and `addFile`, which never modify the `runs_metadata` table (and `commit`
performs no store access at all). -/
theorem init_single_insert_immutable (db : DB) (url UUID : String)
    (r : FetchResult) (now : Nat) :
    (∀ e, archiverInit db url UUID r now (some e) = .error e) ∧
    archiverInit db url UUID r now none = .ok (initBuild db url UUID r now) ∧
    (initBuild db url UUID r now).2.runs_metadata =
      db.runs_metadata ++ [(initBuild db url UUID r now).1.run_metadata] ∧
    ((initBuild db url UUID r now).1.run_metadata.run_id =
        db.runs_metadata.length + 1 ∧
      (initBuild db url UUID r now).1.run_metadata.body_SHA256 =
        sha256hex r.content ∧
      (initBuild db url UUID r now).1.run_metadata.headers =
        jsonDumps r.headers) ∧
    (∀ a u2 t2 f2 db2,
      addURL (initBuild db url UUID r now).2 a u2 t2 f2 = .ok db2 →
        db2.runs_metadata = (initBuild db url UUID r now).2.runs_metadata) ∧
    (∀ a fl fn cm bs t3 f3 db3,
      addFile (initBuild db url UUID r now).2 a fl fn cm bs t3 f3 = .ok db3 →
        db3.runs_metadata = (initBuild db url UUID r now).2.runs_metadata) := by
  refine ⟨fun e => rfl, rfl, rfl, ⟨rfl, rfl, rfl⟩, ?_, ?_⟩
  · intro a u2 t2 f2 db2 h
    exact (addURL_frame _ a u2 t2 f2 db2 h).1
  · intro a fl fn cm bs t3 f3 db3 h
    exact (addFile_frame _ a fl fn cm bs t3 f3 db3 h).1

theorem init_single_insert_immutable_witness :
    archiverInit dbEmpty "https://example.org/a" "uuid-1" rHello 0
      (some (DBError.operationalError "disk I/O error")) =
      .error (DBError.operationalError "disk I/O error") ∧
    archiverInit dbEmpty "https://example.org/a" "uuid-1" rHello 0 none =
      .ok (initBuild dbEmpty "https://example.org/a" "uuid-1" rHello 0) ∧
    dbHello.runs_metadata = [archHello.run_metadata] :=
  ⟨(init_single_insert_immutable dbEmpty "https://example.org/a" "uuid-1"
      rHello 0).1 (DBError.operationalError "disk I/O error"),
   (init_single_insert_immutable dbEmpty "https://example.org/a" "uuid-1"
      rHello 0).2.1,
   (init_single_insert_immutable dbEmpty "https://example.org/a" "uuid-1"
      rHello 0).2.2.1⟩

end ArchiverTools
